import Mathlib

/-!
Verification of the SSE REPL server (src/main.py) against its specification.

Python strings are embedded as `List Char`; `asyncio.Queue` contents as
`List EventData` (FIFO, enqueue at the tail); the registry
`context.subscribers` as a `List Nat` of channel identities, with a map
`queues : Nat → List EventData` giving each channel its queued events.
Fallible operations (Python exceptions) return `Option`.  The possibility
that `await queue.put(...)` raises (caught by the `try/except` in
`broadcast_message`) is modelled by a failure oracle `fails : Nat → Bool`.
-/

namespace SSERepl

/-- Python whitespace predicate used by `str.strip()` and `str.split(None)`
(the ASCII whitespace characters). -/
def isPySpace (c : Char) : Bool :=
  c == ' ' || c == '\t' || c == '\n' || c == '\r' || c == '\x0b' || c == '\x0c'

/-- Python `str.strip()`: drop leading and trailing whitespace. -/
def pyStrip (l : List Char) : List Char :=
  ((l.dropWhile isPySpace).reverse.dropWhile isPySpace).reverse

/-- Python `str.lower()` on the ASCII letters (all that the prefix checks in
`parse_input` need). -/
def pyLower (l : List Char) : List Char := l.map Char.toLower

/-- Python `rest.split(None, 1)`: skip leading whitespace; if nothing is left
the result is `[]`; otherwise take the first maximal run of non-whitespace as
the first token, skip the following whitespace run, and if anything remains it
is the second element (kept verbatim). -/
def splitNone1 (s : List Char) : List (List Char) :=
  let s1 := s.dropWhile isPySpace
  if s1.isEmpty then []
  else
    let tok := s1.takeWhile (fun c => !(isPySpace c))
    let after := (s1.dropWhile (fun c => !(isPySpace c))).dropWhile isPySpace
    if after.isEmpty then [tok] else [tok, after]

/-- `parse_input` from src/main.py lines 102-131: strip the line; a
case-insensitive `data:` prefix gives a regular message; a case-insensitive
`event:` prefix is split into event name and message; otherwise the (stripped)
line is a regular message. -/
def parse_input (l : List Char) : List Char × List Char :=
  let line := pyStrip l
  if ("data:".toList).isPrefixOf (pyLower line) then
    ("message".toList, pyStrip (line.drop 5))
  else if ("event:".toList).isPrefixOf (pyLower line) then
    let rest := pyStrip (line.drop 6)
    match splitNone1 rest with
    | [event_name, message] => (event_name, message)
    | [event_name] => (event_name, [])
    | _ => ("message".toList, line)
  else
    ("message".toList, line)

/-- Python `str.replace(old, new)` for a single-character `old`. -/
def pyReplace (old : Char) (new : List Char) : List Char → List Char
  | [] => []
  | c :: rest => (if c = old then new else [c]) ++ pyReplace old new rest

/-- The JSON escaping performed at src/main.py line 142:
`message.replace('\\', '\\\\').replace('"', '\\"').replace('\n', '\\n')` —
backslash first, then double quote, then newline. -/
def escapeMessage (message : List Char) : List Char :=
  pyReplace '\n' ('\\' :: 'n' :: [])
    (pyReplace '\"' ('\\' :: '\"' :: [])
      (pyReplace '\\' ('\\' :: '\\' :: []) message))

/-- The JSON object embedded in the `data:` line of an SSE frame
(src/main.py lines 182 and 185). -/
def jsonObject (message timestamp : List Char) : List Char :=
  ("\x7b\"message\": \"".toList) ++ message ++ ("\", \"timestamp\": \"".toList) ++
    timestamp ++ ("\"\x7d".toList)

/-- The `data:` line of an SSE frame. -/
def dataLine (message timestamp : List Char) : List Char :=
  ("data: ".toList) ++ jsonObject message timestamp

/-- The SSE frame yielded by `event_generator` (src/main.py lines 179-185):
no `event:` line for the sentinel kind `message`, an `event: <kind>` line
before the `data:` line otherwise; terminated by a blank line. -/
def encodeFrame (event_type message timestamp : List Char) : List Char :=
  if event_type = ("message".toList) then
    dataLine message timestamp ++ ('\n' :: '\n' :: [])
  else
    ("event: ".toList) ++ event_type ++ ('\n' :: []) ++
      (dataLine message timestamp ++ ('\n' :: '\n' :: []))

/-- Split a character list on a separator character (used to talk about the
lines of an SSE frame). -/
def splitOnChar (c : Char) : List Char → List (List Char)
  | [] => [[]]
  | x :: xs =>
    if x = c then [] :: splitOnChar c xs
    else
      match splitOnChar c xs with
      | [] => [[x]]
      | h :: t => (x :: h) :: t

/-- The dict `event_data = {"type": event_type, "message": escaped_message}`
enqueued by `broadcast_message` (src/main.py line 145). -/
structure EventData where
  type : List Char
  message : List Char
deriving DecidableEq

/-- The mutable server state relevant to the pub/sub claims: the registry
`context.subscribers` (channel identities, in registration order) and the
contents of every channel's queue.  The shutdown events of `ServerContext`
in src/main.py are irrelevant to the claims and omitted. -/
structure ServerContext where
  subscribers : List Nat
  queues : Nat → List EventData

/-- Point update of the queue map. -/
def updateQ (q : Nat → List EventData) (c : Nat) (v : List EventData) :
    Nat → List EventData :=
  fun c' => if c' = c then v else q c'

/-- The delivery loop of `broadcast_message` (src/main.py lines 146-150):
iterate over the snapshot; `await queue.put(event_data)` appends to the
channel's queue; a raised exception (oracle `fails`) is caught and the channel
identity is logged (the `print` on line 150), and the loop continues. -/
def deliverAll (fails : Nat → Bool) (ev : EventData) :
    List Nat → (Nat → List EventData) × List Nat → (Nat → List EventData) × List Nat
  | [], acc => acc
  | c :: rest, acc =>
    if fails c then deliverAll fails ev rest (acc.1, acc.2 ++ [c])
    else deliverAll fails ev rest (updateQ acc.1 c (acc.1 c ++ [ev]), acc.2)

/-- `broadcast_message` from src/main.py lines 134-150: escape the message,
build `event_data`, iterate over the snapshot copy `context.subscribers[:]`
and enqueue onto every channel, catching and logging per-channel failures.
Returns the new state together with the list of logged failures. -/
def broadcast_message (fails : Nat → Bool) (event_type message : List Char)
    (st : ServerContext) : ServerContext × List Nat :=
  let escaped_message := escapeMessage message
  let event_data : EventData := ⟨event_type, escaped_message⟩
  let res := deliverAll fails event_data st.subscribers (st.queues, [])
  ({ st with queues := res.1 }, res.2)

/-- Registration in `event_generator` (src/main.py lines 165-168): create a
fresh empty queue `c` and `context.subscribers.append(client_queue)`. -/
def register (st : ServerContext) (c : Nat) : ServerContext :=
  { st with subscribers := st.subscribers ++ [c], queues := updateQ st.queues c [] }

/-- Python `list.remove(x)`: remove the first occurrence of `x`; `none`
models the `ValueError` raised when `x` is absent. -/
def listRemove (c : Nat) : List Nat → Option (List Nat)
  | [] => none
  | x :: xs => if x = c then some xs else (listRemove c xs).map (fun ys => x :: ys)

/-- Deregistration in `event_generator` (src/main.py line 188):
`context.subscribers.remove(client_queue)`. -/
def deregister (st : ServerContext) (c : Nat) : Option ServerContext :=
  (listRemove c st.subscribers).map (fun subs => { st with subscribers := subs })

/-- Number of occurrences of a channel identity in the registry. -/
def countOcc (c : Nat) : List Nat → Nat
  | [] => 0
  | x :: xs => (if x = c then 1 else 0) + countOcc c xs

/-- `Path.resolve()` on an absolute path given by its components: `..` pops a
component (a no-op at the filesystem root), `.` and empty components vanish.
Symlinks are not modelled. -/
def normalize (comps : List String) : List String :=
  comps.foldl (fun acc comp =>
    if comp = ".." then acc.dropLast
    else if comp = "." ∨ comp = "" then acc
    else acc ++ [comp]) []

/-- The outcome of `serve_static`: a served file, HTTP 404, or HTTP 403. -/
inductive StaticResponse where
  | ok (file : List String)
  | notFound
  | forbidden
deriving DecidableEq

/-- The empty-path default of `serve_static` (src/main.py lines 203-204). -/
def requestPath (path : List String) : List String :=
  if path = [] then ["index.html"] else path

/-- `serve_static` from src/main.py lines 197-220: default empty paths to
`index.html`, join under the static root, resolve, reject with 403 when
`relative_to` fails (the resolved root is not a components-wise leading part of
the resolved path), answer 404 when the result is not an existing regular file
(`fs` is the set of regular files, by resolved path), and serve it otherwise. -/
def serve_static (fs : List (List String)) (static_dir : List String)
    (path : List String) : StaticResponse :=
  let file_path := normalize (static_dir ++ requestPath path)
  if (normalize static_dir).isPrefixOf file_path then
    if file_path ∈ fs then StaticResponse.ok file_path else StaticResponse.notFound
  else StaticResponse.forbidden

/-- Consume the body of a JSON string literal up to and including its closing
quote, per the RFC 8259 string grammar (the `\\uXXXX` escape is omitted: the
encoder never emits it).  Raw control characters and dangling or unknown
escapes are rejected. -/
def parseStringBody : List Char → Option (List Char)
  | [] => none
  | c :: rest =>
    if c = '\"' then some rest
    else if c = '\\' then
      match rest with
      | [] => none
      | e :: rest2 =>
        if e = '\"' ∨ e = '\\' ∨ e = '/' ∨ e = 'b' ∨ e = 'f' ∨ e = 'n' ∨ e = 'r' ∨ e = 't'
        then parseStringBody rest2
        else none
    else if c.toNat < 32 then none
    else parseStringBody rest

/-- Consume one JSON string literal (opening quote, body, closing quote). -/
def parseJString : List Char → Option (List Char)
  | c :: rest => if c = '\"' then parseStringBody rest else none
  | [] => none

/-- Consume an exact literal. -/
def stripLit : List Char → List Char → Option (List Char)
  | [], s => some s
  | _ :: _, [] => none
  | l :: ls, c :: cs => if c = l then stripLit ls cs else none

/-- Check that `s` is a syntactically valid JSON object of the exact shape
emitted by the codec: `{"message": <string>, "timestamp": <string>}`, with
both values well-formed JSON string literals. -/
def validMsgTsObject (s : List Char) : Bool :=
  decide
    (((((stripLit ("\x7b\"message\": ".toList) s).bind parseJString).bind
        (stripLit (", \"timestamp\": ".toList))).bind parseJString)
      = some ("\x7d".toList))

/-! ### Registry and broadcast lemmas -/

theorem countOcc_eq_zero {c : Nat} {l : List Nat} (h : c ∉ l) : countOcc c l = 0 := by
  induction l with
  | nil => rfl
  | cons x xs ih =>
    have hx : x ≠ c := fun he => h (he ▸ List.mem_cons_self x xs)
    have hxs : c ∉ xs := fun hm => h (List.mem_cons_of_mem x hm)
    simp [countOcc, hx, ih hxs]

theorem countOcc_nodup {c : Nat} {l : List Nat} (hnd : l.Nodup) (hm : c ∈ l) :
    countOcc c l = 1 := by
  induction l with
  | nil => cases hm
  | cons x xs ih =>
    rcases List.nodup_cons.mp hnd with ⟨hx, hxs⟩
    rcases List.mem_cons.mp hm with he | hmem
    · subst he
      simp [countOcc, countOcc_eq_zero hx]
    · have hne : x ≠ c := fun he => hx (he ▸ hmem)
      simp [countOcc, hne, ih hxs hmem]

theorem listRemove_of_not_mem {c : Nat} {l : List Nat} (h : c ∉ l) :
    listRemove c l = none := by
  induction l with
  | nil => rfl
  | cons x xs ih =>
    have hx : x ≠ c := fun he => h (he ▸ List.mem_cons_self x xs)
    have hxs : c ∉ xs := fun hm => h (List.mem_cons_of_mem x hm)
    simp [listRemove, hx, ih hxs]

theorem listRemove_mem {c : Nat} {l l' : List Nat} (h : listRemove c l = some l') :
    c ∈ l := by
  by_contra hm
  rw [listRemove_of_not_mem hm] at h
  cases h

theorem listRemove_countOcc {c : Nat} {l l' : List Nat}
    (h : listRemove c l = some l') : countOcc c l = countOcc c l' + 1 := by
  induction l generalizing l' with
  | nil => cases h
  | cons x xs ih =>
    by_cases hx : x = c
    · subst hx
      simp [listRemove] at h
      subst h
      simp [countOcc, Nat.add_comm]
    · simp [listRemove, hx] at h
      rcases h with ⟨ys, hys, hl'⟩
      subst hl'
      simp [countOcc, hx, ih hys, Nat.add_assoc]

theorem listRemove_append {c : Nat} (pre post : List Nat) (h : c ∉ pre) :
    listRemove c (pre ++ c :: post) = some (pre ++ post) := by
  induction pre with
  | nil => simp [listRemove]
  | cons x xs ih =>
    have hx : x ≠ c := fun he => h (he ▸ List.mem_cons_self x xs)
    have hxs : c ∉ xs := fun hm => h (List.mem_cons_of_mem x hm)
    simp [listRemove, hx, ih hxs]

theorem deregister_some {st : ServerContext} {c : Nat} {st' : ServerContext}
    (h : deregister st c = some st') :
    st'.queues = st.queues ∧ listRemove c st.subscribers = some st'.subscribers := by
  unfold deregister at h
  cases hr : listRemove c st.subscribers with
  | none => rw [hr] at h; cases h
  | some subs =>
    rw [hr] at h
    simp only [Option.map_some'] at h
    cases h
    exact ⟨rfl, rfl⟩

theorem deliverAll_queues (fails : Nat → Bool) (ev : EventData) (snap : List Nat)
    (q : Nat → List EventData) (log : List Nat) (c : Nat) :
    (deliverAll fails ev snap (q, log)).1 c
      = q c ++ List.replicate (if fails c then 0 else countOcc c snap) ev := by
  induction snap generalizing q log with
  | nil => simp [deliverAll, countOcc]
  | cons c0 rest ih =>
    by_cases h0 : fails c0
    · rw [show deliverAll fails ev (c0 :: rest) (q, log)
            = deliverAll fails ev rest (q, log ++ [c0]) by simp [deliverAll, h0]]
      rw [ih]
      by_cases hc : fails c
      · simp [hc]
      · have hne : c0 ≠ c := fun he => hc (he ▸ h0)
        simp [hc, countOcc, hne]
    · rw [show deliverAll fails ev (c0 :: rest) (q, log)
            = deliverAll fails ev rest (updateQ q c0 (q c0 ++ [ev]), log) by
          simp [deliverAll, h0]]
      rw [ih]
      by_cases hc : c = c0
      · subst hc
        have hf : fails c = false := by simpa using h0
        simp [updateQ, countOcc, hf, List.append_assoc]
        rw [Nat.add_comm 1, List.replicate_succ]
      · have hne : c0 ≠ c := fun he => hc he.symm
        simp [updateQ, hc, countOcc, hne]

theorem deliverAll_log (fails : Nat → Bool) (ev : EventData) (snap : List Nat)
    (q : Nat → List EventData) (log : List Nat) :
    (deliverAll fails ev snap (q, log)).2 = log ++ snap.filter fails := by
  induction snap generalizing q log with
  | nil => simp [deliverAll]
  | cons c0 rest ih =>
    by_cases h0 : fails c0
    · rw [show deliverAll fails ev (c0 :: rest) (q, log)
            = deliverAll fails ev rest (q, log ++ [c0]) by simp [deliverAll, h0]]
      rw [ih]
      simp [List.filter_cons, h0]
    · rw [show deliverAll fails ev (c0 :: rest) (q, log)
            = deliverAll fails ev rest (updateQ q c0 (q c0 ++ [ev]), log) by
          simp [deliverAll, h0]]
      rw [ih]
      simp [List.filter_cons, h0]

theorem broadcast_message_queues (fails : Nat → Bool) (et msg : List Char)
    (st : ServerContext) (c : Nat) :
    ((broadcast_message fails et msg st).1).queues c
      = st.queues c ++
          List.replicate (if fails c then 0 else countOcc c st.subscribers)
            ⟨et, escapeMessage msg⟩ := by
  show (deliverAll fails ⟨et, escapeMessage msg⟩ st.subscribers (st.queues, [])).1 c = _
  exact deliverAll_queues fails _ st.subscribers st.queues [] c

theorem broadcast_message_subscribers (fails : Nat → Bool) (et msg : List Char)
    (st : ServerContext) :
    ((broadcast_message fails et msg st).1).subscribers = st.subscribers := rfl

theorem broadcast_message_log (fails : Nat → Bool) (et msg : List Char)
    (st : ServerContext) :
    (broadcast_message fails et msg st).2 = st.subscribers.filter fails := by
  show (deliverAll fails ⟨et, escapeMessage msg⟩ st.subscribers (st.queues, [])).2 = _
  rw [deliverAll_log]
  simp

/-! ### Claims about broadcast and the registry -/

/-- Claim C1: for every registry of registered subscriber channels (pairwise
distinct, as registration always appends a fresh queue) and every event,
`broadcast_message` enqueues exactly one copy of the event onto each registered
channel — the channel's queue is extended by exactly that one event — and if
`broadcast(A)` is called before `broadcast(B)`, every channel that receives
both holds A before B (per-channel FIFO in broadcast-call order). -/
theorem C1_broadcast_once_per_channel_fifo
    (fails : Nat → Bool) (st : ServerContext) (etA msgA etB msgB : List Char)
    (c : Nat) (hc : c ∈ st.subscribers) (hnd : st.subscribers.Nodup)
    (hf : fails c = false) :
    ((broadcast_message fails etA msgA st).1).queues c
      = st.queues c ++ [⟨etA, escapeMessage msgA⟩] ∧
    ((broadcast_message fails etB msgB
        (broadcast_message fails etA msgA st).1).1).queues c
      = st.queues c ++ [⟨etA, escapeMessage msgA⟩, ⟨etB, escapeMessage msgB⟩] := by
  have h1 : ((broadcast_message fails etA msgA st).1).queues c
      = st.queues c ++ [⟨etA, escapeMessage msgA⟩] := by
    rw [broadcast_message_queues, hf, countOcc_nodup hnd hc]
    simp
  refine ⟨h1, ?_⟩
  have h2 := broadcast_message_queues fails etB msgB
    (broadcast_message fails etA msgA st).1 c
  rw [broadcast_message_subscribers] at h2
  rw [h2, hf, countOcc_nodup hnd hc, h1]
  simp

/-- Witness for C1 at a concrete two-subscriber registry. -/
theorem C1_witness :
    ((broadcast_message (fun _ => false) ("ping".toList) ("a".toList)
        ⟨[0, 1], fun _ => []⟩).1).queues 0
      = [⟨"ping".toList, escapeMessage ("a".toList)⟩] :=
  (C1_broadcast_once_per_channel_fifo (fun _ => false) ⟨[0, 1], fun _ => []⟩
    ("ping".toList) ("a".toList) ("x".toList) ("y".toList) 0
    (by decide) (by decide) rfl).1

/-- Claim C2: broadcast iterates over a point-in-time snapshot of the
registry.  (a) A channel registered after the snapshot was taken (it is not in
the snapshot) ends the delivery loop with an empty queue: it never receives
that broadcast's event.  (b) A channel deregistered before a broadcast call
begins receives nothing from that broadcast.  (c) A channel deregistered after
the snapshot was taken still receives that one event, because the delivery
loop consults only the snapshot. -/
theorem C2_snapshot_semantics
    (fails : Nat → Bool) (st : ServerContext) (et msg : List Char) (c : Nat)
    (hnd : st.subscribers.Nodup) :
    (c ∉ st.subscribers →
      (deliverAll fails ⟨et, escapeMessage msg⟩ st.subscribers
          ((register st c).queues, [])).1 c = []) ∧
    (∀ st', deregister st c = some st' →
      ((broadcast_message fails et msg st').1).queues c = st'.queues c) ∧
    (∀ st', c ∈ st.subscribers → fails c = false → deregister st c = some st' →
      (deliverAll fails ⟨et, escapeMessage msg⟩ st.subscribers
          (st'.queues, [])).1 c
        = st.queues c ++ [⟨et, escapeMessage msg⟩]) := by
  refine ⟨?_, ?_, ?_⟩
  · intro hc
    rw [deliverAll_queues, countOcc_eq_zero hc]
    simp [register, updateQ]
  · intro st' hd
    rcases deregister_some hd with ⟨_, hr⟩
    have hmem : c ∈ st.subscribers := listRemove_mem hr
    have h1 : countOcc c st.subscribers = countOcc c st'.subscribers + 1 :=
      listRemove_countOcc hr
    have h2 : countOcc c st'.subscribers = 0 := by
      have := countOcc_nodup hnd hmem
      omega
    rw [broadcast_message_queues, h2]
    simp
  · intro st' hmem hf hd
    rcases deregister_some hd with ⟨hq, _⟩
    rw [deliverAll_queues, hf, countOcc_nodup hnd hmem, hq]
    simp

/-- Witness for C2: a fresh channel 7 not in the snapshot receives nothing;
channel 5, deregistered after the snapshot was taken, still receives the
event. -/
theorem C2_witness :
    ((deliverAll (fun _ => false) ⟨"e".toList, escapeMessage ("m".toList)⟩ [5]
        ((register ⟨[5], fun _ => []⟩ 7).queues, [])).1 7 = []) ∧
    ((deliverAll (fun _ => false) ⟨"e".toList, escapeMessage ("m".toList)⟩ [5]
        ((⟨[], fun _ => []⟩ : ServerContext).queues, [])).1 5
      = [⟨"e".toList, escapeMessage ("m".toList)⟩]) :=
  ⟨(C2_snapshot_semantics (fun _ => false) ⟨[5], fun _ => []⟩ ("e".toList)
      ("m".toList) 7 (by decide)).1 (by decide),
   (C2_snapshot_semantics (fun _ => false) ⟨[5], fun _ => []⟩ ("e".toList)
      ("m".toList) 5 (by decide)).2.2 ⟨[], fun _ => []⟩ (by decide) rfl rfl⟩

/-- Counterexample to claim C3 as stated: deregistering a channel that is not
in the registry is not a no-op — `context.subscribers.remove(client_queue)`
raises `ValueError` (modelled by `none`) instead of returning the registry
unchanged. -/
theorem C3_counterexample :
    deregister ⟨[], fun _ => []⟩ 0 = none ∧
    deregister ⟨[], fun _ => []⟩ 0 ≠ some ⟨[], fun _ => []⟩ :=
  ⟨rfl, fun h => Option.noConfusion h⟩

/-- Claim C3 as amended: deregistering removes the first occurrence of the
channel when it is present; deregistering a channel that is not in the
registry raises `ValueError` (Python `list.remove`) rather than being a
no-op. -/
theorem C3_amended_deregister (st : ServerContext) (c : Nat) :
    (c ∉ st.subscribers → deregister st c = none) ∧
    (∀ pre post, st.subscribers = pre ++ c :: post → c ∉ pre →
      deregister st c = some { st with subscribers := pre ++ post }) := by
  constructor
  · intro h
    unfold deregister
    rw [listRemove_of_not_mem h]
    rfl
  · intro pre post hs hp
    unfold deregister
    rw [hs, listRemove_append pre post hp]
    rfl

/-- Witness for the amended C3: removal of the first occurrence of 2, and the
`ValueError` on an empty registry. -/
theorem C3_amended_witness :
    deregister ⟨[1, 2, 2], fun _ => []⟩ 2 = some ⟨[1, 2], fun _ => []⟩ ∧
    deregister ⟨[], fun _ => []⟩ 3 = none :=
  ⟨(C3_amended_deregister ⟨[1, 2, 2], fun _ => []⟩ 2).2 [1] [2] rfl (by decide),
   (C3_amended_deregister ⟨[], fun _ => []⟩ 3).1 (by decide)⟩

/-- Claim C4: a per-channel enqueue failure is caught and logged by
`broadcast_message` and delivery still reaches every other (non-failing)
channel of the snapshot exactly as in a failure-free broadcast; the failing
channel's queue is left unchanged and the failure is logged. -/
theorem C4_failure_isolation
    (fails : Nat → Bool) (et msg : List Char) (st : ServerContext) (c d : Nat)
    (hc : fails c = true) (hcm : c ∈ st.subscribers) (hd : fails d = false) :
    ((broadcast_message fails et msg st).1).queues c = st.queues c ∧
    ((broadcast_message fails et msg st).1).queues d
      = ((broadcast_message (fun _ => false) et msg st).1).queues d ∧
    c ∈ (broadcast_message fails et msg st).2 := by
  refine ⟨?_, ?_, ?_⟩
  · rw [broadcast_message_queues, hc]
    simp
  · rw [broadcast_message_queues, broadcast_message_queues, hd]
  · rw [broadcast_message_log]
    exact List.mem_filter.mpr ⟨hcm, hc⟩

/-- Witness for C4: channel 0 fails, its queue stays empty, the failure is
logged. -/
theorem C4_witness :
    ((broadcast_message (fun n => n == 0) ("e".toList) ("m".toList)
        ⟨[0, 1], fun _ => []⟩).1).queues 0 = [] ∧
    0 ∈ (broadcast_message (fun n => n == 0) ("e".toList) ("m".toList)
        ⟨[0, 1], fun _ => []⟩).2 :=
  ⟨(C4_failure_isolation (fun n => n == 0) ("e".toList) ("m".toList)
      ⟨[0, 1], fun _ => []⟩ 0 1 rfl (by decide) rfl).1,
   (C4_failure_isolation (fun n => n == 0) ("e".toList) ("m".toList)
      ⟨[0, 1], fun _ => []⟩ 0 1 rfl (by decide) rfl).2.2⟩

/-- Claim C10: for every event and every registry state, `broadcast_message`
leaves the subscriber registry itself unchanged — the list of registered
channels (set and order) after a broadcast equals the one before it, even when
enqueueing onto some channels fails (any failure oracle). -/
theorem C10_broadcast_preserves_registry (fails : Nat → Bool)
    (et msg : List Char) (st : ServerContext) :
    ((broadcast_message fails et msg st).1).subscribers = st.subscribers := rfl

/-! ### Claims about parsing -/

/-- Claim C5: `parse_input` maps prefixed and free-text lines per the spec's
parsing rules — `data: hello` to `("message", "hello")`,
`event: ping hello world` to `("ping", "hello world")`, `event: ping` to
`("ping", "")`, `random text` to `("message", "random text")` — and the
`data:`/`event:` prefixes are recognized case-insensitively. -/
theorem C5_parse_input_examples :
    parse_input ("data: hello".toList) = ("message".toList, "hello".toList) ∧
    parse_input ("event: ping hello world".toList)
      = ("ping".toList, "hello world".toList) ∧
    parse_input ("event: ping".toList) = ("ping".toList, "".toList) ∧
    parse_input ("random text".toList)
      = ("message".toList, "random text".toList) ∧
    parse_input ("DATA: hello".toList) = ("message".toList, "hello".toList) ∧
    parse_input ("Data: hello".toList) = ("message".toList, "hello".toList) ∧
    parse_input ("EVENT: ping hello world".toList)
      = ("ping".toList, "hello world".toList) ∧
    parse_input ("eVeNt: ping".toList) = ("ping".toList, "".toList) := by decide

/-- Counterexample to claim C6 as stated: `parse_input` strips the line
first (`line = line.strip()` on src/main.py line 108), so for a fallback line
with surrounding whitespace the payload is the stripped line, not the original
input line; likewise for the degenerate `event:` line with trailing spaces. -/
theorem C6_counterexample :
    parse_input ("  random text  ".toList)
      = ("message".toList, "random text".toList) ∧
    ("random text".toList ≠ "  random text  ".toList) ∧
    parse_input ("event:   ".toList) = ("message".toList, "event:".toList) ∧
    ("event:".toList ≠ "event:   ".toList) := by decide

/-- Claim C6 as amended: for every line that (after stripping) matches neither
the `data:` nor the `event:` prefix rule, and for every line whose remainder
after the `event:` prefix is empty, `parse_input` returns an Event of kind
`message` whose payload is the input line stripped of leading and trailing
whitespace — which equals the original input line exactly when the line has no
surrounding whitespace. -/
theorem C6_amended_fallback (l : List Char) :
    (("data:".toList).isPrefixOf (pyLower (pyStrip l)) = false →
     ("event:".toList).isPrefixOf (pyLower (pyStrip l)) = false →
     parse_input l = ("message".toList, pyStrip l)) ∧
    (("data:".toList).isPrefixOf (pyLower (pyStrip l)) = false →
     splitNone1 (pyStrip ((pyStrip l).drop 6)) = [] →
     parse_input l = ("message".toList, pyStrip l)) := by
  constructor
  · intro h1 h2
    simp at h1 h2
    simp [parse_input, h1, h2]
  · intro h1 h2
    simp at h1
    by_cases h3 : ("event:".toList).isPrefixOf (pyLower (pyStrip l)) = true
    · simp at h3
      simp [parse_input, h1, h3, h2]
    · simp at h3
      simp [parse_input, h1, h3]

/-- Witness for the amended C6 at a free-text line and a degenerate
`event:` line. -/
theorem C6_amended_witness :
    parse_input ("random text".toList)
      = ("message".toList, "random text".toList) ∧
    parse_input ("event:".toList) = ("message".toList, "event:".toList) :=
  ⟨(C6_amended_fallback ("random text".toList)).1 (by decide) (by decide),
   (C6_amended_fallback ("event:".toList)).2 (by decide) (by decide)⟩

/-! ### Claims about the SSE frame -/

theorem splitOnChar_of_not_mem {c : Char} {xs : List Char} (h : c ∉ xs) :
    splitOnChar c xs = [xs] := by
  induction xs with
  | nil => rfl
  | cons x l ih =>
    have hx : x ≠ c := fun he => h (he ▸ List.mem_cons_self x l)
    have hl : c ∉ l := fun hm => h (List.mem_cons_of_mem x hm)
    simp [splitOnChar, hx, ih hl]

theorem splitOnChar_append {c : Char} (xs ys : List Char) (h : c ∉ xs) :
    splitOnChar c (xs ++ c :: ys) = xs :: splitOnChar c ys := by
  induction xs with
  | nil => simp [splitOnChar]
  | cons x l ih =>
    have hx : x ≠ c := fun he => h (he ▸ List.mem_cons_self x l)
    have hl : c ∉ l := fun hm => h (List.mem_cons_of_mem x hm)
    simp [splitOnChar, hx, ih hl]

theorem isPrefixOf_cons_of_ne {a b : Char} {l1 l2 : List Char} (h : a ≠ b) :
    (a :: l1).isPrefixOf (b :: l2) = false := by
  simp [List.isPrefixOf, h]

theorem newline_not_mem_dataLine {message timestamp : List Char}
    (hm : '\n' ∉ message) (ht : '\n' ∉ timestamp) :
    '\n' ∉ dataLine message timestamp := by
  intro hmem
  simp only [dataLine, jsonObject, List.mem_append, List.append_assoc] at hmem
  rcases hmem with h | h | h | h | h | h
  · exact absurd h (by decide)
  · exact absurd h (by decide)
  · exact hm h
  · exact absurd h (by decide)
  · exact ht h
  · exact absurd h (by decide)

/-- Claim C7: when the kind is the sentinel `message` (and no argument
contains a raw newline, which is what the escaping guarantees for delivered
payloads), no line of the encoded SSE frame is an `event:` line; when the kind
differs from `message`, the frame's lines are exactly an `event: <kind>` line,
then the `data:` line, then the blank terminator; and in both cases the frame
ends with two newline characters. -/
theorem C7_frame_structure (event_type message timestamp : List Char)
    (hk : '\n' ∉ event_type) (hm : '\n' ∉ message) (ht : '\n' ∉ timestamp) :
    (event_type = ("message".toList) →
      ∀ l ∈ splitOnChar '\n' (encodeFrame event_type message timestamp),
        ("event:".toList).isPrefixOf l = false) ∧
    (event_type ≠ ("message".toList) →
      splitOnChar '\n' (encodeFrame event_type message timestamp)
        = (("event: ".toList) ++ event_type) ::
            dataLine message timestamp :: [[], []] ∧
      ("data:".toList).isPrefixOf (dataLine message timestamp) = true) ∧
    (∃ front, encodeFrame event_type message timestamp
        = front ++ ('\n' :: '\n' :: [])) := by
  have hd : '\n' ∉ dataLine message timestamp := newline_not_mem_dataLine hm ht
  refine ⟨?_, ?_, ?_⟩
  · intro he l hl
    rw [encodeFrame, if_pos he, splitOnChar_append _ _ hd] at hl
    rcases List.mem_cons.mp hl with h | h
    · subst h
      exact isPrefixOf_cons_of_ne (by decide)
    · have h2 : l ∈ ([[], []] : List (List Char)) := h
      rcases List.mem_cons.mp h2 with h3 | h3
      · subst h3
        rfl
      · rcases List.mem_singleton.mp h3 with h4
        subst h4
        rfl
  · intro he
    have h1 : '\n' ∉ ("event: ".toList) ++ event_type := by
      intro hmem
      rcases List.mem_append.mp hmem with h | h
      · exact absurd h (by decide)
      · exact hk h
    constructor
    · rw [encodeFrame, if_neg he]
      rw [show ("event: ".toList) ++ event_type ++ ('\n' :: []) ++
            (dataLine message timestamp ++ ('\n' :: '\n' :: []))
          = (("event: ".toList) ++ event_type) ++
              '\n' :: (dataLine message timestamp ++ '\n' :: ('\n' :: [])) by
        simp [List.append_assoc]]
      rw [splitOnChar_append _ _ h1, splitOnChar_append _ _ hd]
      rfl
    · rfl
  · by_cases he : event_type = ("message".toList)
    · exact ⟨dataLine message timestamp, by rw [encodeFrame, if_pos he]⟩
    · refine ⟨("event: ".toList) ++ event_type ++ ('\n' :: []) ++
        dataLine message timestamp, ?_⟩
      rw [encodeFrame, if_neg he]
      simp [List.append_assoc]

/-- Witness for C7 at kind `ping`: the frame's lines are the `event: ping`
line, the `data:` line, and the blank-line terminator. -/
theorem C7_witness :
    splitOnChar '\n' (encodeFrame ("ping".toList) ("hi".toList) ("T".toList))
      = (("event: ".toList) ++ ("ping".toList)) ::
          dataLine ("hi".toList) ("T".toList) :: [[], []] :=
  ((C7_frame_structure ("ping".toList) ("hi".toList) ("T".toList)
      (by decide) (by decide) (by decide)).2.1 (by decide)).1

/-! ### Claims about JSON escaping -/

theorem pyReplace_append (old : Char) (new a b : List Char) :
    pyReplace old new (a ++ b) = pyReplace old new a ++ pyReplace old new b := by
  induction a with
  | nil => rfl
  | cons c rest ih => simp [pyReplace, ih, List.append_assoc]

/-- The per-character effect of the three sequential replaces of
`escapeMessage`. -/
def escapeChar (c : Char) : List Char :=
  if c = '\\' then '\\' :: '\\' :: []
  else if c = '\"' then '\\' :: '\"' :: []
  else if c = '\n' then '\\' :: 'n' :: []
  else [c]

theorem escapeMessage_cons (c : Char) (l : List Char) :
    escapeMessage (c :: l) = escapeChar c ++ escapeMessage l := by
  by_cases h1 : c = '\\'
  · subst h1
    simp [escapeMessage, escapeChar, pyReplace, pyReplace_append]
  · by_cases h2 : c = '\"'
    · subst h2
      simp [escapeMessage, escapeChar, pyReplace, pyReplace_append]
    · by_cases h3 : c = '\n'
      · subst h3
        simp [escapeMessage, escapeChar, pyReplace, pyReplace_append]
      · simp [escapeMessage, escapeChar, pyReplace, pyReplace_append, h1, h2, h3]

theorem parseJString_quote (s : List Char) :
    parseJString ('\"' :: s) = parseStringBody s := rfl

theorem parseStringBody_escape (l : List Char)
    (hm : ∀ c ∈ l, 32 ≤ c.toNat ∨ c = '\n') (r : List Char) :
    parseStringBody (escapeMessage l ++ '\"' :: r) = some r := by
  induction l with
  | nil =>
    rw [show escapeMessage [] ++ '\"' :: r = '\"' :: r from rfl,
      parseStringBody.eq_def]
    simp
  | cons c rest ih =>
    have hc := hm c (List.mem_cons_self c rest)
    have hrest : ∀ x ∈ rest, 32 ≤ x.toNat ∨ x = '\n' :=
      fun x hx => hm x (List.mem_cons_of_mem c hx)
    rw [escapeMessage_cons, List.append_assoc]
    by_cases h1 : c = '\\'
    · subst h1
      rw [show escapeChar '\\' ++ (escapeMessage rest ++ '\"' :: r)
            = '\\' :: '\\' :: (escapeMessage rest ++ '\"' :: r) from rfl,
        parseStringBody.eq_def]
      simp
      exact ih hrest
    · by_cases h2 : c = '\"'
      · subst h2
        rw [show escapeChar '\"' ++ (escapeMessage rest ++ '\"' :: r)
              = '\\' :: '\"' :: (escapeMessage rest ++ '\"' :: r) from rfl,
          parseStringBody.eq_def]
        simp
        exact ih hrest
      · by_cases h3 : c = '\n'
        · subst h3
          rw [show escapeChar '\n' ++ (escapeMessage rest ++ '\"' :: r)
                = '\\' :: 'n' :: (escapeMessage rest ++ '\"' :: r) from rfl,
            parseStringBody.eq_def]
          simp
          exact ih hrest
        · have h32 : 32 ≤ c.toNat := by
            rcases hc with h | h
            · exact h
            · exact absurd h h3
          have hlt : ¬ c.toNat < 32 := by omega
          rw [show escapeChar c = [c] by simp [escapeChar, h1, h2, h3],
            List.cons_append, List.nil_append, parseStringBody.eq_def]
          simp [h1, h2, hlt]
          exact ih hrest

theorem parseStringBody_plain (l : List Char)
    (h : ∀ c ∈ l, 32 ≤ c.toNat ∧ c ≠ '\"' ∧ c ≠ '\\') (r : List Char) :
    parseStringBody (l ++ '\"' :: r) = some r := by
  induction l with
  | nil =>
    rw [List.nil_append, parseStringBody.eq_def]
    simp
  | cons c rest ih =>
    rcases h c (List.mem_cons_self c rest) with ⟨h32, hq, hb⟩
    have hrest : ∀ x ∈ rest, 32 ≤ x.toNat ∧ x ≠ '\"' ∧ x ≠ '\\' :=
      fun x hx => h x (List.mem_cons_of_mem c hx)
    have hlt : ¬ c.toNat < 32 := by omega
    rw [List.cons_append, parseStringBody.eq_def]
    simp [hq, hb, hlt]
    exact ih hrest

theorem stripLit_append (l s : List Char) : stripLit l (l ++ s) = some s := by
  induction l with
  | nil => rfl
  | cons c rest ih => simp [stripLit, ih]

/-- Counterexample to claim C8 as stated: the claim quantifies over every
payload containing a backslash, double quote, or newline, but the code escapes
only those three characters, so a payload that also contains another raw
control character — here a double quote plus a raw tab — yields a `data:` line
whose JSON string carries the tab unescaped, which is not syntactically valid
JSON (RFC 8259 forbids raw control characters in string literals). -/
theorem C8_counterexample :
    ('\"' ∈ ("a\"b\tc".toList)) ∧
    validMsgTsObject
      (jsonObject (escapeMessage ("a\"b\tc".toList)) ("2024-01-01".toList))
      = false := by decide

/-- Claim C8 as amended: for every payload string whose raw control
characters are limited to newline (backslash, double quote, and newline being
exactly the characters the code escapes) and every timestamp of ordinary
characters, the escaping performed by `broadcast_message` (backslash first,
then double quote, then newline) makes the `data:` line carry a syntactically
valid JSON object with fields `message` and `timestamp`. -/
theorem C8_escaping_yields_valid_json (message timestamp : List Char)
    (hm : ∀ c ∈ message, 32 ≤ c.toNat ∨ c = '\n')
    (ht : ∀ c ∈ timestamp, 32 ≤ c.toNat ∧ c ≠ '\"' ∧ c ≠ '\\') :
    dataLine (escapeMessage message) timestamp
      = ("data: ".toList) ++ jsonObject (escapeMessage message) timestamp ∧
    validMsgTsObject (jsonObject (escapeMessage message) timestamp) = true := by
  refine ⟨rfl, ?_⟩
  unfold validMsgTsObject jsonObject
  rw [decide_eq_true_eq]
  rw [show ("\x7b\"message\": \"".toList)
        = ("\x7b\"message\": ".toList) ++ ('\"' :: []) from rfl]
  rw [show ("\", \"timestamp\": \"".toList)
        = '\"' :: ((", \"timestamp\": ".toList) ++ ('\"' :: [])) from rfl]
  rw [show ("\"\x7d".toList) = '\"' :: ("\x7d".toList) from rfl]
  simp only [List.append_assoc, List.cons_append, List.nil_append]
  rw [stripLit_append, Option.some_bind, parseJString_quote,
    parseStringBody_escape message hm, Option.some_bind, stripLit_append,
    Option.some_bind, parseJString_quote, parseStringBody_plain timestamp ht]

/-- Witness for C8 at a payload containing a backslash, a double quote, and a
newline. -/
theorem C8_witness :
    validMsgTsObject
      (jsonObject (escapeMessage ("a\\b\"c\nd".toList)) ("2024-01-01".toList))
      = true :=
  (C8_escaping_yields_valid_json ("a\\b\"c\nd".toList) ("2024-01-01".toList)
    (by decide) (by decide)).2

/-! ### Claims about the static file handler -/

/-- Claim C9: a request whose resolution against the static root escapes that
root (the resolved root is not a components-wise leading part of the resolved
path, e.g. because of `../` components) is answered 403; the handler never
serves a file outside the root (every served file lies under the resolved
root and is an existing regular file); and a non-escaping path that names no
existing regular file is answered 404. -/
theorem C9_path_traversal (fs : List (List String)) (static_dir path : List String) :
    ((normalize static_dir).isPrefixOf
        (normalize (static_dir ++ requestPath path)) = false →
      serve_static fs static_dir path = StaticResponse.forbidden) ∧
    (∀ f, serve_static fs static_dir path = StaticResponse.ok f →
      (normalize static_dir).isPrefixOf f = true ∧ f ∈ fs) ∧
    ((normalize static_dir).isPrefixOf
        (normalize (static_dir ++ requestPath path)) = true →
      normalize (static_dir ++ requestPath path) ∉ fs →
      serve_static fs static_dir path = StaticResponse.notFound) := by
  refine ⟨?_, ?_, ?_⟩
  · intro h
    simp [serve_static, h]
  · intro f hf
    unfold serve_static at hf
    by_cases h1 : (normalize static_dir).isPrefixOf
        (normalize (static_dir ++ requestPath path)) = true
    · rw [if_pos h1] at hf
      by_cases h2 : normalize (static_dir ++ requestPath path) ∈ fs
      · rw [if_pos h2] at hf
        cases hf
        exact ⟨h1, h2⟩
      · rw [if_neg h2] at hf
        cases hf
    · simp only [Bool.not_eq_true] at h1
      rw [if_neg (by simp [h1])] at hf
      cases hf
  · intro h1 h2
    simp [serve_static, h1, h2]

/-- Witness for C9: `srv/..` escapes the root and is rejected with 403, and a
missing file under the root is answered 404. -/
theorem C9_witness :
    serve_static [["srv", "index.html"]] ["srv"] [".."]
      = StaticResponse.forbidden ∧
    serve_static [["srv", "index.html"]] ["srv"] ["missing.txt"]
      = StaticResponse.notFound :=
  ⟨(C9_path_traversal [["srv", "index.html"]] ["srv"] [".."]).1 (by decide),
   (C9_path_traversal [["srv", "index.html"]] ["srv"] ["missing.txt"]).2.2
     (by decide) (by decide)⟩

end SSERepl
